import Mathlib

/-!
Verification of the link-resolution and media-propagation logic of the
nbsphinx-link source (src/nbsphinx_link/__init__.py) against its
natural-language specification.

Paths are modelled POSIX-style as an absolute flag plus a list of
components; normalization (os.path.normpath, and pathlib's .resolve()
taken lexically, i.e. without symlinks) collapses "." and ".." components.
The filesystem is modelled as a finite set of files and directories, and
the stateful parts of the source (dependency registration, warning
logging, file copying) as explicit state passing.
-/

/-- A POSIX-style path: an absolute flag and the list of components
between the separators. -/
structure PyPath where
  isAbs : Bool
  parts : List String
deriving DecidableEq, Repr

/-- One step of lexical path normalization, processing one component
against a stack of already-kept components (most recent first): "" and
"." vanish; ".." cancels the previous component, stays put at the root of
an absolute path, and accumulates at the front of a relative path. This
is the component handling shared by os.path.normpath and by pathlib
resolution taken lexically. -/
def pushComp (ab : Bool) (stack : List String) (c : String) : List String :=
  if c = "" ∨ c = "." then stack
  else if c = ".." then
    match stack with
    | [] => if ab then [] else [".."]
    | top :: rest => if top = ".." then c :: top :: rest else rest
  else c :: stack

/-- Normalize a component list (for a path whose absolute flag is `ab`). -/
def normParts (ab : Bool) (cs : List String) : List String :=
  (cs.foldl (pushComp ab) []).reverse

/-- os.path.normpath, lexically. -/
def pyNorm (p : PyPath) : PyPath :=
  ⟨p.isAbs, normParts p.isAbs p.parts⟩

/-- Path joining as done by both os.path.join and pathlib's `/` operator:
an absolute right operand discards the left operand. -/
def pyJoin (a b : PyPath) : PyPath :=
  if b.isAbs then b else ⟨a.isAbs, a.parts ++ b.parts⟩

/-- Resolution of a possibly-relative path against the working directory:
os.path.abspath, and pathlib's .resolve() taken lexically. -/
def pyResolve (cwd p : PyPath) : PyPath :=
  pyNorm (pyJoin cwd p)

/-- os.path.dirname / pathlib .parent: drop the last component. -/
def parentP (p : PyPath) : PyPath :=
  ⟨p.isAbs, p.parts.dropLast⟩

/-- Line 182 of the source: `abs_path = (source_dir / link["path"]).resolve()`,
where `source_dir` is the (working-directory-relative) directory of the
document name and resolution happens against the working directory. -/
def resolveNotebook (cwd sourceDir p : PyPath) : PyPath :=
  pyResolve cwd (pyJoin sourceDir p)

/-- Length of the longest common leading run of two component lists. -/
def sharedLen : List String → List String → Nat
  | a :: as, b :: bs => if a = b then sharedLen as bs + 1 else 0
  | _, _ => 0

/-- pathlib `PurePath.relative_to(other, walk_up=True)` as used on line 192
of the source: walk up `other`'s ancestors until one is a lexical ancestor
of `self`; fail (ValueError) when the anchors differ or a walked-over name
of `other` is "..". -/
def relativeToWalkUp (self other : PyPath) : Option PyPath :=
  if self.isAbs ≠ other.isAbs then none
  else
    let k := sharedLen self.parts other.parts
    if (other.parts.drop k).contains ".." then none
    else some ⟨false, List.replicate (other.parts.length - k) ".." ++ self.parts.drop k⟩

/-- A component that survives normalization unchanged. -/
def goodComp (c : String) : Bool :=
  ¬(c = "" ∨ c = "." ∨ c = "..")

/-- All components of the list are plain names. -/
def goodParts (cs : List String) : Prop :=
  ∀ c ∈ cs, goodComp c = true

instance (cs : List String) : Decidable (goodParts cs) :=
  List.decidableBAll _ cs

/-- A canonical absolute path: absolute, with only plain components.
This is the shape produced by lexical resolution of an absolute path. -/
def canonAbs (p : PyPath) : Prop :=
  p.isAbs = true ∧ goodParts p.parts

instance (p : PyPath) : Decidable (canonAbs p) := by
  unfold canonAbs; infer_instance

/-- docutils `utils.relative_path(source, target)`: the path to `target`
relative to the directory of the file `source` (both made absolute against
the working directory first, as os.path.abspath does); when not even the
first components agree, the absolute target is returned instead. A `None`
source is modelled the way the Python implementation realizes it: the
caller passes the literal file name "dummy" in the working directory. -/
def relativePath (cwd source target : PyPath) : PyPath :=
  let sp := (pyResolve cwd source).parts
  let tp := (pyResolve cwd target).parts
  if sp.take 1 ≠ tp.take 1 then ⟨true, tp⟩
  else
    ⟨false, List.replicate (sp.length - sharedLen sp tp - 1) ".." ++
      tp.drop (sharedLen sp tp)⟩

/-- Lines 134-135 of the source: the media destination is
`normpath(join(source_dir, relative_path(nb_path, src_path)))` — the
offset of the media source from the notebook's directory, re-applied from
the descriptor's directory. -/
def mediaDest (cwd sourceDir nbPath srcPath : PyPath) : PyPath :=
  pyNorm (pyJoin sourceDir (relativePath cwd nbPath srcPath))

/-- Modelled from the spec's words for claim C5, for comparison with
`mediaDest` (which is what the source computes): take the relative offset
the entry had from the descriptor's directory (for a relative entry, the
entry itself) and re-apply that offset from the directory of the resolved
notebook's absolute path. -/
def specMediaDest (cwd sourceDir nbAbs entry : PyPath) : PyPath :=
  let offset : PyPath :=
    if entry.isAbs then
      let sd := (pyResolve cwd sourceDir).parts
      let ep := (pyNorm entry).parts
      ⟨false, List.replicate (sd.length - sharedLen sd ep) ".." ++
        ep.drop (sharedLen sd ep)⟩
    else entry
  pyNorm (pyJoin (parentP nbAbs) offset)

/-- The filesystem: the recorded files and directories, each an absolute
canonical component list. -/
structure FS where
  files : List (List String)
  dirs : List (List String)
deriving DecidableEq, Repr

def fileIn (fs : FS) (p : List String) : Bool := fs.files.contains p

/-- The root directory always exists. -/
def dirIn (fs : FS) (p : List String) : Bool := p.isEmpty || fs.dirs.contains p

def existsIn (fs : FS) (p : List String) : Bool := fileIn fs p || dirIn fs p

def addFile (fs : FS) (p : List String) : FS :=
  if fs.files.contains p then fs else ⟨fs.files ++ [p], fs.dirs⟩

/-- os.makedirs: create the directory and any missing ancestors. -/
def addDirs (fs : FS) (p : List String) : FS :=
  ⟨fs.files,
    fs.dirs ++ (((List.range (p.length + 1)).map (fun i => p.take i)).filter
      (fun q => ¬(q.isEmpty || fs.dirs.contains q)))⟩

/-- Files whose directory is exactly `d` (the filenames os.walk reports
when visiting `d`), as full paths. -/
def filesIn (fs : FS) (d : List String) : List (List String) :=
  fs.files.filter (fun f => f.dropLast = d)

/-- `p` lies at or below directory `d`. -/
def under (d p : List String) : Bool := p.take d.length = d

/-- The directories os.walk visits when walking `s`. -/
def walkRoots (fs : FS) (s : List String) : List (List String) :=
  fs.dirs.filter (under s)

instance {ε α : Type} [DecidableEq ε] [DecidableEq α] : DecidableEq (Except ε α) :=
  fun x y =>
    match x, y with
    | Except.ok a, Except.ok b =>
      if h : a = b then isTrue (by rw [h])
      else isFalse (fun he => h (Except.ok.inj he))
    | Except.error a, Except.error b =>
      if h : a = b then isTrue (by rw [h])
      else isFalse (fun he => h (Except.error.inj he))
    | Except.ok _, Except.error _ => isFalse (fun he => Except.noConfusion he)
    | Except.error _, Except.ok _ => isFalse (fun he => Except.noConfusion he)

/-- shutil.copy: copying to an existing directory appends the source's
basename; the copy raises (OSError) when the source file is missing, when
source and destination are the same file (SameFileError), or when the
destination's directory does not exist. -/
def shutilCopy (cwd : PyPath) (fs : FS) (src dest : PyPath) : Except String FS :=
  let s := (pyResolve cwd src).parts
  let d0 := (pyResolve cwd dest).parts
  let d := if dirIn fs d0 then d0 ++ [s.getLastD ""] else d0
  if ¬ fileIn fs s then Except.error "no such file or directory"
  else if s = d then Except.error "same file"
  else if dirIn fs d0 || dirIn fs d.dropLast || fileIn fs d then Except.ok (addFile fs d)
  else Except.error "destination directory does not exist"

/-- The warnings the source can log during media collection, carrying the
data interpolated into the respective log message. -/
inductive Warn
  | notAList (sourceFile : PyPath)
  | invalidPath (sourceFile entry : PyPath)
  | copyFail (src : PyPath) (err : String)
deriving DecidableEq, Repr

/-- The document-processing state: the filesystem, the document's
dependency set (paths exactly as they were registered), and the
`any_dirs` / `note_reread` flags. -/
structure Core where
  fs : FS
  deps : List PyPath
  anyDirs : Bool
  reread : Bool
deriving DecidableEq, Repr

/-- Sequencing of state transformations that also log warnings. -/
def seqW (r : Core × List Warn) (f : Core → Core × List Warn) : Core × List Warn :=
  match f r.1 with
  | (c, w) => (c, r.2 ++ w)

/-- Lines 36-49 (`register_dependency`): insert a path into the document's
dependency set (`record_dependencies.add` and `env.note_dependency` feed
the same per-document set in this model). -/
def registerDependency (p : PyPath) (c : Core) : Core :=
  { c with deps := c.deps ++ [p] }

/-- Lines 52-70 (`copy_file`): try to copy; on success register the source
as a dependency; an OSError is logged as a warning and swallowed. -/
def copyFileM (cwd : PyPath) (c : Core) (src dest : PyPath) : Core × List Warn :=
  match shutilCopy cwd c.fs src dest with
  | Except.ok fs2 => (registerDependency src { c with fs := fs2 }, [])
  | Except.error e => (c, [Warn.copyFail src e])

/-- Lines 88-95, the directory branch of `copy_and_register_files`:
os.walk over the source directory (taken on the directory set at entry),
creating each needed destination directory and copying each contained
file into it. os.path.relpath(root, src) is the remainder of `root` past
`src` (the "." it yields when the two are equal disappears again in the
normalization applied at every use of dst_root, so the empty remainder
models it). -/
def copyTreeM (cwd : PyPath) (c : Core) (srcA : List String) (dest : PyPath) :
    Core × List Warn :=
  (walkRoots c.fs srcA).foldl
    (fun acc root =>
      seqW acc (fun c1 =>
        let dstRoot := (pyResolve cwd (pyJoin dest ⟨false, root.drop srcA.length⟩)).parts
        let fnames := filesIn c.fs root
        let c2 := if ¬ fnames.isEmpty ∧ ¬ existsIn c1.fs dstRoot then
            { c1 with fs := addDirs c1.fs dstRoot } else c1
        fnames.foldl
          (fun acc2 f => seqW acc2 (fun c3 => copyFileM cwd c3 ⟨true, f⟩ ⟨true, dstRoot⟩))
          (c2, [])))
    (c, [])

/-- Lines 73-97 (`copy_and_register_files`). -/
def copyAndRegisterFilesM (cwd : PyPath) (c : Core) (src dest : PyPath) :
    Core × List Warn :=
  if dirIn c.fs (pyResolve cwd src).parts then
    copyTreeM cwd c (pyResolve cwd src).parts dest
  else copyFileM cwd c src dest

/-- Lines 128-132: the resolved media source. Absolute entries are used
directly; a relative entry is joined to `source_dir`, and that join is
joined to `source_dir` once more and normalized — the double join is
exactly what the source computes. -/
def mediaSrc (sourceDir entry : PyPath) : PyPath :=
  if entry.isAbs then entry
  else pyNorm (pyJoin sourceDir (pyJoin sourceDir entry))

/-- One iteration of the loop of lines 127-145: resolve the source and
destination, copy when the source exists, warn otherwise, and request a
re-read at the end of the iteration when any directory has been seen. -/
def processEntryM (cwd sourceFile nbPath : PyPath) (c : Core) (entry : PyPath) :
    Core × List Warn :=
  let sourceDir := parentP sourceFile
  let src := mediaSrc sourceDir entry
  let dest := mediaDest cwd sourceDir nbPath src
  let srcA := (pyResolve cwd src).parts
  let r :=
    if existsIn c.fs srcA then
      copyAndRegisterFilesM cwd { c with anyDirs := c.anyDirs || dirIn c.fs srcA } src dest
    else
      (c, [Warn.invalidPath sourceFile entry])
  if r.1.anyDirs then ({ r.1 with reread := true }, r.2) else r

/-- The loop of lines 127-145 over a list of entries. -/
def runEntriesM (cwd sourceFile nbPath : PyPath) (c : Core) (es : List PyPath) :
    Core × List Warn :=
  es.foldl (fun acc e => seqW acc (fun c1 => processEntryM cwd sourceFile nbPath c1 e)) (c, [])

/-- After any iteration of the loop, a re-read has been requested whenever
a directory entry has been seen. -/
def coreInv (c : Core) : Prop := c.anyDirs = true → c.reread = true

instance (c : Core) : Decidable (coreInv c) := by
  unfold coreInv; infer_instance

/-- The shapes of the JSON value under "extra-media" that matter to the
source: a list of path strings, some other iterable (a string, whose
iteration yields its characters), or a non-iterable value. -/
inductive EMVal
  | vlist (xs : List PyPath)
  | vstr (chars : List String)
  | vnum (n : Int)
deriving DecidableEq, Repr

def EMVal.isList : EMVal → Bool
  | vlist _ => true
  | _ => false

/-- Python truthiness of the value (`if extra_media:` on line 186). -/
def EMVal.truthy : EMVal → Bool
  | vlist xs => ¬ xs.isEmpty
  | vstr cs => ¬ cs.isEmpty
  | vnum n => n ≠ 0

/-- A single character of an iterated string, seen as a path. -/
def charEntry (c : String) : PyPath :=
  if c = "/" then ⟨true, []⟩ else ⟨false, [c]⟩

/-- Iterating the value (`for extract_media_path in extra_media:`, line
127): lists yield their elements, strings their characters, and a
non-iterable value raises TypeError. -/
def EMVal.entries : EMVal → Option (List PyPath)
  | vlist xs => some xs
  | vstr cs => some (cs.map charEntry)
  | vnum _ => none

/-- Lines 100-145 (`collect_extra_media`): warn when the value is not a
list, then iterate it anyway; iterating a non-iterable value escapes as
an exception (TypeError), with any warning already logged kept. -/
def collectExtraMediaM (cwd : PyPath) (v : EMVal) (sourceFile nbPath : PyPath)
    (c : Core) : List Warn × Except String Core :=
  let w0 : List Warn := if v.isList then [] else [Warn.notAList sourceFile]
  match v.entries with
  | none => (w0, Except.error "TypeError: object is not iterable")
  | some es =>
    let r := runEntriesM cwd sourceFile nbPath c es
    (w0 ++ r.2, Except.ok r.1)

/-- The failure modes of `LinkedNotebookParser.parse` up to the metadata
step, plus — modelled from the spec — the `ConfigurationError` kind the
spec prescribes for descriptor problems; the source never raises that
kind. -/
inductive PErr
  | jsonDecodeError (msg : String)
  | keyError (key : String)
  | typeError (msg : String)
  | valueError (msg : String)
  | configurationError (sourceFile : PyPath) (msg : String)
deriving DecidableEq, Repr

def PErr.isConfigError : PErr → Bool
  | configurationError _ _ => true
  | _ => false

/-- Line 182: the resolved absolute notebook path. -/
def nbAbsOf (cwd docname p : PyPath) : PyPath :=
  pyResolve cwd (pyJoin (parentP docname) p)

/-- Line 183: `path = Path(utils.relative_path(None, abs_path))`. -/
def nbPathOf (cwd docname p : PyPath) : PyPath :=
  relativePath cwd ⟨false, ["dummy"]⟩ (nbAbsOf cwd docname p)

/-- The successful outcome of a parse: the document state and the
resolved/recorded paths. -/
structure ParseOut where
  core : Core
  notebookAbs : PyPath
  notebookPath : PyPath
  linkTarget : PyPath
deriving DecidableEq, Repr

/-- Lines 171-193 (`LinkedNotebookParser.parse`) up to the metadata step:
the input is the outcome of `json.loads` (its decode error, or the
decoded pair of the "path" value and the "extra-media" value); the
function either fails with the propagated exception or produces the
final document state together with the resolved paths and the recorded
link-target metadata. -/
def parseLink (cwd : PyPath) (input : Except String (Option PyPath × Option EMVal))
    (docname targetRoot : PyPath) (fs : FS) : List Warn × Except PErr ParseOut :=
  match input with
  | Except.error e => ([], Except.error (PErr.jsonDecodeError e))
  | Except.ok (pathVal, emVal) =>
    match pathVal with
    | none => ([], Except.error (PErr.keyError "path"))
    | some p =>
      let absPath := nbAbsOf cwd docname p
      let nbPath := nbPathOf cwd docname p
      let c0 : Core := ⟨fs, [], false, false⟩
      let step :=
        match emVal with
        | some v =>
          if v.truthy then collectExtraMediaM cwd v docname nbPath c0
          else ([], Except.ok c0)
        | none => ([], Except.ok c0)
      match step with
      | (ws, Except.error e) => (ws, Except.error (PErr.typeError e))
      | (ws, Except.ok c1) =>
        let c2 := registerDependency nbPath c1
        match relativeToWalkUp absPath targetRoot with
        | none => (ws, Except.error (PErr.valueError "relative_to walk_up"))
        | some target => (ws, Except.ok ⟨c2, absPath, nbPath, target⟩)

/-- The project root of the spec's concrete scenario, also used as the
working directory and the target root. -/
def exRoot : PyPath := ⟨true, ["root"]⟩

/-- The document name of the descriptor docs/a/b.nblink (Sphinx document
names drop the extension). -/
def exDoc : PyPath := ⟨false, ["docs", "a", "b"]⟩

/-- The filesystem of the spec's concrete scenario. -/
def exFS : FS :=
  ⟨[["root", "notebooks", "demo.ipynb"], ["root", "notebooks", "img", "fig.png"]],
   [["root"], ["root", "docs"], ["root", "docs", "a"], ["root", "notebooks"],
    ["root", "notebooks", "img"]]⟩

/-- The notebook path of the scenario, relative to the working
directory. -/
def exNbRel : PyPath := ⟨false, ["notebooks", "demo.ipynb"]⟩

/-- The extra-media entry of the scenario. -/
def exEntryImg : PyPath := ⟨false, ["..", "..", "notebooks", "img"]⟩

/-- A filesystem on which the (double-joined) media source of the
scenario's entry does exist as a file and its destination directory
exists, so that the entry is copied. -/
def fs5 : FS :=
  ⟨[["root", "docs", "a", "notebooks", "img"]],
   [["root"], ["root", "docs"], ["root", "docs", "a"],
    ["root", "docs", "a", "notebooks"], ["root", "notebooks"],
    ["root", "docs", "docs"], ["root", "docs", "docs", "a"],
    ["root", "docs", "docs", "a", "notebooks"]]⟩

/-- A filesystem with two plain media files at the locations the source's
resolution derives for the entries ../../x/m1 and ../../x/m2 of a
descriptor at docs/a/b.nblink, and with the destination directory that
the source's destination computation requires. -/
def fs6 : FS :=
  ⟨[["root", "docs", "a", "x", "m1"], ["root", "docs", "a", "x", "m2"]],
   [["root"], ["root", "docs"], ["root", "docs", "a"], ["root", "docs", "a", "x"],
    ["root", "docs", "docs"], ["root", "docs", "docs", "a"],
    ["root", "docs", "docs", "a", "x"], ["root", "notebooks"]]⟩

theorem pyJoin_assoc (a b c : PyPath) :
    pyJoin (pyJoin a b) c = pyJoin a (pyJoin b c) := by
  unfold pyJoin
  by_cases hc : c.isAbs
  · simp [hc]
  · by_cases hb : b.isAbs
    · simp [hb, hc]
    · simp [hb, hc, List.append_assoc]

/-- C1: for a descriptor with notebook path `P` in a link file whose
directory is `D` (the working-directory-relative `source_dir` made
absolute against the working directory, `D = cwd / source_dir`), the
resolved notebook path is `normalize (D / P)` when `P` is relative and
`normalize P` when `P` is absolute; the working directory enters the
computation only through `D` itself, and not at all for an absolute `P`. -/
theorem C1_notebook_resolution (cwd sourceDir p : PyPath) :
    resolveNotebook cwd sourceDir p =
      if p.isAbs then pyNorm p
      else pyNorm (pyJoin (pyJoin cwd sourceDir) p) := by
  unfold resolveNotebook pyResolve
  rw [← pyJoin_assoc]
  by_cases hp : p.isAbs
  · have h1 : pyJoin (pyJoin cwd sourceDir) p = p := by
      unfold pyJoin; simp [hp]
    rw [h1]; simp [hp]
  · simp [hp]

theorem goodParts_append {xs ys : List String} (hx : goodParts xs)
    (hy : goodParts ys) : goodParts (xs ++ ys) := by
  intro c hc
  rcases List.mem_append.mp hc with h | h
  · exact hx c h
  · exact hy c h

theorem goodParts_take {xs : List String} (hx : goodParts xs) (n : Nat) :
    goodParts (xs.take n) :=
  fun c hc => hx c (List.take_subset n xs hc)

theorem goodParts_drop {xs : List String} (hx : goodParts xs) (n : Nat) :
    goodParts (xs.drop n) :=
  fun c hc => hx c (List.drop_subset n xs hc)

theorem goodParts_reverse {xs : List String} (hx : goodParts xs) :
    goodParts xs.reverse :=
  fun c hc => hx c (List.mem_reverse.mp hc)

theorem goodParts_dropLast {xs : List String} (hx : goodParts xs) :
    goodParts xs.dropLast :=
  fun c hc => hx c (List.dropLast_subset xs hc)

/-- Folding a list of plain components just pushes them onto the stack. -/
theorem foldl_push_goods (b : Bool) :
    ∀ (xs st : List String), goodParts xs →
      List.foldl (pushComp b) st xs = xs.reverse ++ st := by
  intro xs
  induction xs with
  | nil => intro st _; simp
  | cons x xs ih =>
    intro st hg
    have hx : goodComp x = true := hg x (List.mem_cons_self x xs)
    have hxs : goodParts xs := fun c hc => hg c (List.mem_cons_of_mem x hc)
    have hstep : pushComp b st x = x :: st := by
      unfold pushComp
      unfold goodComp at hx
      simp only [decide_eq_true_eq] at hx
      push_neg at hx
      simp [hx.1, hx.2.1, hx.2.2]
    simp only [List.foldl_cons, hstep, ih (x :: st) hxs, List.reverse_cons,
      List.append_assoc, List.cons_append, List.nil_append]

/-- A run of ".." components pops an equally long run of plain components
off the stack. -/
theorem foldl_pop_dots (b : Bool) :
    ∀ (ys st : List String), goodParts ys →
      List.foldl (pushComp b) (ys ++ st) (List.replicate ys.length "..") = st := by
  intro ys
  induction ys with
  | nil => intro st _; simp
  | cons y ys ih =>
    intro st hg
    have hy : goodComp y = true := hg y (List.mem_cons_self y ys)
    have hys : goodParts ys := fun c hc => hg c (List.mem_cons_of_mem y hc)
    have hyne : y ≠ ".." := by
      unfold goodComp at hy
      simp only [decide_eq_true_eq] at hy
      push_neg at hy
      exact hy.2.2
    have hstep : pushComp b ((y :: ys) ++ st) ".." = ys ++ st := by
      unfold pushComp
      simp [hyne]
    simp only [List.length_cons, List.replicate_succ, List.foldl_cons, hstep]
    exact ih st hys

/-- Core rejoining identity: a canonical list, followed by a detour into
`mid` and back out through matching ".." components, normalizes to the
straight route. -/
theorem rejoinCore (b : Bool) (pre mid post : List String)
    (h1 : goodParts pre) (h2 : goodParts mid) (h3 : goodParts post) :
    normParts b (pre ++ mid ++ List.replicate mid.length ".." ++ post) =
      pre ++ post := by
  unfold normParts
  rw [show pre ++ mid ++ List.replicate mid.length ".." ++ post =
      (pre ++ mid) ++ (List.replicate mid.length ".." ++ post) by
    simp [List.append_assoc]]
  rw [List.foldl_append]
  rw [foldl_push_goods b (pre ++ mid) [] (goodParts_append h1 h2)]
  rw [List.foldl_append]
  have hrev : (pre ++ mid).reverse ++ [] = mid.reverse ++ pre.reverse := by
    simp
  rw [hrev]
  have hlen : mid.length = mid.reverse.length := by simp
  rw [hlen, foldl_pop_dots b mid.reverse pre.reverse (goodParts_reverse h2)]
  rw [foldl_push_goods b post pre.reverse h3]
  simp

theorem sharedLen_le_left : ∀ a b : List String, sharedLen a b ≤ a.length := by
  intro a
  induction a with
  | nil => intro b; cases b <;> simp [sharedLen]
  | cons x xs ih =>
    intro b
    cases b with
    | nil => simp [sharedLen]
    | cons y ys =>
      by_cases h : x = y
      · simp only [sharedLen, if_pos h, List.length_cons]
        exact Nat.succ_le_succ (ih ys)
      · simp [sharedLen, h]

theorem sharedLen_le_right : ∀ a b : List String, sharedLen a b ≤ b.length := by
  intro a
  induction a with
  | nil => intro b; cases b <;> simp [sharedLen]
  | cons x xs ih =>
    intro b
    cases b with
    | nil => simp [sharedLen]
    | cons y ys =>
      by_cases h : x = y
      · simp only [sharedLen, if_pos h, List.length_cons]
        exact Nat.succ_le_succ (ih ys)
      · simp [sharedLen, h]

theorem take_sharedLen : ∀ a b : List String,
    a.take (sharedLen a b) = b.take (sharedLen a b) := by
  intro a
  induction a with
  | nil => intro b; cases b <;> simp [sharedLen]
  | cons x xs ih =>
    intro b
    cases b with
    | nil => simp [sharedLen]
    | cons y ys =>
      by_cases h : x = y
      · subst h
        simp [sharedLen, ih ys]
      · simp [sharedLen, h]

theorem not_dots_mem {cs : List String} (h : goodParts cs) : ".." ∉ cs := by
  intro hm
  have := h ".." hm
  simp [goodComp] at this

/-- Rejoin identity in the grouping produced by `pyJoin`. -/
theorem rejoin_abs (A B C : List String)
    (hA : goodParts A) (hB : goodParts B) (hC : goodParts C) :
    normParts true ((A ++ B) ++ (List.replicate B.length ".." ++ C)) = A ++ C := by
  have h := rejoinCore true A B C hA hB hC
  have e : (A ++ B) ++ (List.replicate B.length ".." ++ C) =
      A ++ B ++ List.replicate B.length ".." ++ C := by
    simp [List.append_assoc]
  rw [e, h]

/-- Round-trip of `relative_to(root, walk_up=True)`: for canonical
absolute paths the relative form exists and rejoining it to the root and
normalizing recovers the original absolute path. -/
theorem rejoin_walkUp (n r : PyPath) (hn : canonAbs n) (hr : canonAbs r) :
    ∃ q, relativeToWalkUp n r = some q ∧ pyResolve r q = n := by
  obtain ⟨hna, hng⟩ := hn
  obtain ⟨hra, hrg⟩ := hr
  unfold relativeToWalkUp
  rw [if_neg (by simp [hna, hra])]
  set k := sharedLen n.parts r.parts with hk
  rw [if_neg (by simpa using not_dots_mem (goodParts_drop hrg k))]
  refine ⟨_, rfl, ?_⟩
  unfold pyResolve pyJoin
  simp only [if_neg (by simp : ¬((false : Bool) = true))]
  unfold pyNorm
  have hkn : k ≤ n.parts.length := sharedLen_le_left n.parts r.parts
  have hsplit : r.parts = n.parts.take k ++ r.parts.drop k := by
    conv_lhs => rw [← List.take_append_drop k r.parts]
    rw [hk, ← take_sharedLen]
  have hcount : r.parts.length - k = (r.parts.drop k).length :=
    (List.length_drop k r.parts).symm
  have key : r.parts ++ (List.replicate (r.parts.length - k) ".." ++ n.parts.drop k) =
      (n.parts.take k ++ r.parts.drop k) ++
        (List.replicate (r.parts.drop k).length ".." ++ n.parts.drop k) := by
    rw [hcount, ← hsplit]
  rw [hra, key, rejoin_abs (n.parts.take k) (r.parts.drop k) (n.parts.drop k)
    (goodParts_take hng k) (goodParts_drop hrg k) (goodParts_drop hng k)]
  rw [List.take_append_drop]
  rw [← hna]

/-- C2: for a canonical absolute notebook path `N` and any two target
roots `R1`, `R2` (canonical absolute, so that a relative path with
ancestor-walking is derivable from each), the computed root-relative
paths, re-joined to their respective roots and normalized, both yield the
same absolute path `N` (round-trip). -/
theorem C2_round_trip (n r1 r2 : PyPath)
    (hn : canonAbs n) (h1 : canonAbs r1) (h2 : canonAbs r2) :
    ∃ q1 q2, relativeToWalkUp n r1 = some q1 ∧ relativeToWalkUp n r2 = some q2 ∧
      pyResolve r1 q1 = n ∧ pyResolve r2 q2 = n := by
  obtain ⟨q1, e1, j1⟩ := rejoin_walkUp n r1 hn h1
  obtain ⟨q2, e2, j2⟩ := rejoin_walkUp n r2 hn h2
  exact ⟨q1, q2, e1, e2, j1, j2⟩

/-- Witness for C2 at a concrete notebook path and two concrete roots,
one an ancestor and one a sibling requiring ancestor-walking. -/
theorem C2_round_trip_witness :
    ∃ q1 q2,
      relativeToWalkUp ⟨true, ["home", "nb", "demo.ipynb"]⟩ ⟨true, ["home"]⟩ = some q1 ∧
      relativeToWalkUp ⟨true, ["home", "nb", "demo.ipynb"]⟩ ⟨true, ["home", "docs", "x"]⟩ = some q2 ∧
      pyResolve ⟨true, ["home"]⟩ q1 = ⟨true, ["home", "nb", "demo.ipynb"]⟩ ∧
      pyResolve ⟨true, ["home", "docs", "x"]⟩ q2 = ⟨true, ["home", "nb", "demo.ipynb"]⟩ :=
  C2_round_trip ⟨true, ["home", "nb", "demo.ipynb"]⟩ ⟨true, ["home"]⟩
    ⟨true, ["home", "docs", "x"]⟩ (by decide) (by decide) (by decide)

/-- Pushing any component onto a stack of plain components (for an
absolute path) leaves a stack of plain components. -/
theorem pushComp_abs_good (st : List String) (c : String) (h : goodParts st) :
    goodParts (pushComp true st c) := by
  unfold pushComp
  by_cases h1 : c = "" ∨ c = "."
  · simpa [h1] using h
  · by_cases h2 : c = ".."
    · simp only [if_neg h1, if_pos h2]
      cases st with
      | nil => intro x hx; simp at hx
      | cons top rest =>
        have htop : goodComp top = true := h top (List.mem_cons_self top rest)
        have hne : ¬ top = ".." := by
          unfold goodComp at htop
          simp only [decide_eq_true_eq] at htop
          push_neg at htop
          exact htop.2.2
        simp only [if_neg hne]
        exact fun x hx => h x (List.mem_cons_of_mem top hx)
    · simp only [if_neg h1, if_neg h2]
      intro x hx
      rcases List.mem_cons.mp hx with rfl | hx
      · unfold goodComp
        push_neg at h1
        simp [h1.1, h1.2, h2]
      · exact h x hx

/-- Lexical normalization of an absolute path leaves only plain
components. -/
theorem goodParts_normParts_abs (cs : List String) :
    goodParts (normParts true cs) := by
  unfold normParts
  have key : ∀ (xs st : List String), goodParts st →
      goodParts (List.foldl (pushComp true) st xs) := by
    intro xs
    induction xs with
    | nil => intro st h; exact h
    | cons x xs ih =>
      intro st h
      exact ih _ (pushComp_abs_good st x h)
  exact goodParts_reverse (key cs [] (by intro c hc; simp at hc))

/-- Resolving any path against an absolute working directory yields a
canonical absolute path. -/
theorem canonAbs_pyResolve (cwd p : PyPath) (h : cwd.isAbs = true) :
    canonAbs (pyResolve cwd p) := by
  have ha : (pyJoin cwd p).isAbs = true := by
    unfold pyJoin
    by_cases hp : p.isAbs <;> simp [hp, h]
  have e : pyResolve cwd p =
      ⟨(pyJoin cwd p).isAbs, normParts (pyJoin cwd p).isAbs (pyJoin cwd p).parts⟩ := rfl
  rw [canonAbs, e, ha]
  exact ⟨rfl, goodParts_normParts_abs _⟩

/-- Normalization fixes a path whose components are all plain. -/
theorem pyNorm_canon (p : PyPath) (h : goodParts p.parts) : pyNorm p = p := by
  unfold pyNorm normParts
  rw [foldl_push_goods p.isAbs p.parts [] h]
  simp

/-- The relative path computed by `relative_path(nb, src)` is a genuine
offset from the notebook's directory: re-applying it at that directory
and normalizing reaches the resolved media source. Hypotheses: the two
resolved paths start with the same component (so the computation does not
take the no-common-ancestor fallback), and the resolved notebook path is
not itself a lexical ancestor of the media source (it is a file). -/
theorem relativePath_offset (cwd s t : PyPath) (hcwd : cwd.isAbs = true)
    (hshare : (pyResolve cwd s).parts.take 1 = (pyResolve cwd t).parts.take 1)
    (hstrict : sharedLen (pyResolve cwd s).parts (pyResolve cwd t).parts <
      (pyResolve cwd s).parts.length) :
    pyNorm ⟨true, (pyResolve cwd s).parts.dropLast ++ (relativePath cwd s t).parts⟩ =
      pyResolve cwd t := by
  have hsg : goodParts (pyResolve cwd s).parts := (canonAbs_pyResolve cwd s hcwd).2
  have htg : goodParts (pyResolve cwd t).parts := (canonAbs_pyResolve cwd t hcwd).2
  have hta : (pyResolve cwd t).isAbs = true := (canonAbs_pyResolve cwd t hcwd).1
  unfold relativePath
  rw [if_neg (by simp [hshare])]
  set sp := (pyResolve cwd s).parts with hsp
  set tp := (pyResolve cwd t).parts with htp
  set k := sharedLen sp tp with hk
  have hdk : sp.drop k ≠ [] := by
    intro hnil
    have : sp.length - k = 0 := by
      rw [← List.length_drop, hnil]; rfl
    omega
  have hsplitS : sp.dropLast = sp.take k ++ (sp.drop k).dropLast := by
    conv_lhs => rw [← List.take_append_drop k sp]
    rw [List.dropLast_append_of_ne_nil _ hdk]
  have hcnt : sp.length - k - 1 = ((sp.drop k).dropLast).length := by
    rw [List.length_dropLast, List.length_drop]
  have htake : sp.take k = tp.take k := by
    rw [hk, take_sharedLen]
  have key : sp.dropLast ++ (List.replicate (sp.length - k - 1) ".." ++ tp.drop k) =
      (tp.take k ++ (sp.drop k).dropLast) ++
        (List.replicate ((sp.drop k).dropLast).length ".." ++ tp.drop k) := by
    rw [hcnt, hsplitS, htake]
  unfold pyNorm
  simp only [key]
  rw [rejoin_abs (tp.take k) ((sp.drop k).dropLast) (tp.drop k)
    (goodParts_take htg k) (goodParts_dropLast (goodParts_drop hsg k))
    (goodParts_drop htg k)]
  rw [List.take_append_drop]
  rw [← hta]

/-- C5 (amended): the destination of a copied extra-media entry is
computed in the reverse frames of what the claim states: the source
(lines 134-135) takes the relative offset of the resolved media source
from the directory of the notebook path — a genuine offset: re-applying
it at the notebook's directory and normalizing reaches the media
source — and re-applies that offset from the descriptor's directory
(`source_dir`), not from the notebook's directory. -/
theorem C5_dest_reverse_frames (cwd sourceDir nbPath srcPath : PyPath)
    (hcwd : cwd.isAbs = true)
    (hshare : (pyResolve cwd nbPath).parts.take 1 = (pyResolve cwd srcPath).parts.take 1)
    (hstrict : sharedLen (pyResolve cwd nbPath).parts (pyResolve cwd srcPath).parts <
      (pyResolve cwd nbPath).parts.length) :
    mediaDest cwd sourceDir nbPath srcPath =
        pyNorm (pyJoin sourceDir (relativePath cwd nbPath srcPath)) ∧
      pyNorm ⟨true, (pyResolve cwd nbPath).parts.dropLast ++
          (relativePath cwd nbPath srcPath).parts⟩ = pyResolve cwd srcPath :=
  ⟨rfl, relativePath_offset cwd nbPath srcPath hcwd hshare hstrict⟩

/-- Witness for the amended C5 at the concrete media source the source
code derives in the spec's scenario. -/
theorem C5_dest_reverse_frames_witness :
    mediaDest exRoot (parentP exDoc) exNbRel ⟨false, ["docs", "a", "notebooks", "img"]⟩ =
        pyNorm (pyJoin (parentP exDoc)
          (relativePath exRoot exNbRel ⟨false, ["docs", "a", "notebooks", "img"]⟩)) ∧
      pyNorm ⟨true, (pyResolve exRoot exNbRel).parts.dropLast ++
          (relativePath exRoot exNbRel ⟨false, ["docs", "a", "notebooks", "img"]⟩).parts⟩ =
        pyResolve exRoot ⟨false, ["docs", "a", "notebooks", "img"]⟩ :=
  C5_dest_reverse_frames exRoot (parentP exDoc) exNbRel
    ⟨false, ["docs", "a", "notebooks", "img"]⟩ (by decide) (by decide) (by decide)

/-- C5 (counterexample): a concrete entry that is copied (the iteration
returns no warning and the copied file appears in the filesystem, at the
destination the source computed), whose destination differs from the one
the claim mandates (the entry's offset from the descriptor's directory
re-applied from the notebook's directory). -/
theorem C5_dest_counterexample :
    processEntryM exRoot exDoc exNbRel ⟨fs5, [], false, false⟩ exEntryImg =
        (⟨⟨[["root", "docs", "a", "notebooks", "img"],
            ["root", "docs", "docs", "a", "notebooks", "img"]], fs5.dirs⟩,
          [⟨false, ["docs", "a", "notebooks", "img"]⟩], false, false⟩, []) ∧
      pyResolve exRoot (mediaDest exRoot (parentP exDoc) exNbRel
          (mediaSrc (parentP exDoc) exEntryImg)) =
        ⟨true, ["root", "docs", "docs", "a", "notebooks", "img"]⟩ ∧
      specMediaDest exRoot (parentP exDoc) ⟨true, ["root", "notebooks", "demo.ipynb"]⟩
          exEntryImg = ⟨true, ["notebooks", "img"]⟩ ∧
      (⟨true, ["root", "docs", "docs", "a", "notebooks", "img"]⟩ : PyPath) ≠
        ⟨true, ["notebooks", "img"]⟩ := by
  decide

/-- C4: evaluates the source's media-source resolution (lines 128-132) at
a relative entry "m" of a descriptor in directory "d": the source joins
the descriptor's directory twice and yields d/d/m, where the claim
mandates the single join d/m; for an absolute entry the claim's
used-directly half does hold. -/
theorem C4_double_join_eval :
    mediaSrc ⟨false, ["d"]⟩ ⟨false, ["m"]⟩ = ⟨false, ["d", "d", "m"]⟩ ∧
      pyNorm (pyJoin ⟨false, ["d"]⟩ ⟨false, ["m"]⟩) = ⟨false, ["d", "m"]⟩ ∧
      mediaSrc ⟨false, ["d"]⟩ ⟨false, ["m"]⟩ ≠
        pyNorm (pyJoin ⟨false, ["d"]⟩ ⟨false, ["m"]⟩) ∧
      mediaSrc ⟨false, ["d"]⟩ ⟨true, ["q", "m"]⟩ = ⟨true, ["q", "m"]⟩ := by
  decide

/-- C3: evaluates the whole parse pipeline at the spec's scenario
(descriptor docs/a/b.nblink with path ../../notebooks/demo.ipynb and
extra-media ../../notebooks/img, notebooks/img/fig.png existing under the
root): the notebook does resolve to root/notebooks/demo.ipynb, but the
media entry resolves (via the double join of lines 131-132) to
docs/a/notebooks/img, which does not exist, so one warning is emitted,
nothing is copied (the filesystem is unchanged), and the dependency set
holds only the notebook — not the claimed fig.png dependency, copy and
absence of warnings. -/
theorem C3_scenario_eval :
    parseLink exRoot
        (Except.ok (some ⟨false, ["..", "..", "notebooks", "demo.ipynb"]⟩,
          some (EMVal.vlist [exEntryImg]))) exDoc exRoot exFS =
      ([Warn.invalidPath exDoc exEntryImg],
        Except.ok ⟨⟨exFS, [exNbRel], false, false⟩,
          ⟨true, ["root", "notebooks", "demo.ipynb"]⟩, exNbRel, exNbRel⟩) := by
  decide

/-- C8: evaluates the parse pipeline at descriptors whose "extra-media"
value is not a list. A non-iterable value (the number 5) makes the
document's processing abort with a TypeError right after the not-a-list
warning; an iterable non-list value (the string "ab") is iterated anyway,
its characters being resolved as media entries, each producing its own
warning — the claim's "media step is skipped, not aborted" holds in
neither case. -/
theorem C8_nonlist_eval :
    parseLink exRoot
        (Except.ok (some ⟨false, ["..", "..", "notebooks", "demo.ipynb"]⟩,
          some (EMVal.vnum 5))) exDoc exRoot exFS =
      ([Warn.notAList exDoc],
        Except.error (PErr.typeError "TypeError: object is not iterable")) ∧
    (parseLink exRoot
        (Except.ok (some ⟨false, ["..", "..", "notebooks", "demo.ipynb"]⟩,
          some (EMVal.vstr ["a", "b"]))) exDoc exRoot exFS).1 =
      [Warn.notAList exDoc, Warn.invalidPath exDoc ⟨false, ["a"]⟩,
        Warn.invalidPath exDoc ⟨false, ["b"]⟩] := by
  decide

/-- C9 (counterexample): on malformed JSON the parse fails by propagating
the raw decode error; the failure is not a ConfigurationError and carries
no file identity, contradicting the claim. -/
theorem C9_config_error_counterexample :
    parseLink exRoot (Except.error "Expecting value: line 1 column 1 (char 0)")
        exDoc exRoot exFS =
      ([], Except.error (PErr.jsonDecodeError "Expecting value: line 1 column 1 (char 0)")) ∧
    (PErr.jsonDecodeError "Expecting value: line 1 column 1 (char 0)").isConfigError = false := by
  exact ⟨rfl, rfl⟩

/-- C9 (amended): malformed JSON and a missing "path" key each fail the
document's parse by propagating the underlying error — the JSON decode
error resp. the key lookup error — unwrapped: no ConfigurationError is
raised and no file identity is attached; nothing is processed for that
document (no warnings, no state). -/
theorem C9_raw_errors (cwd docname targetRoot : PyPath) (fs : FS)
    (msg : String) (em : Option EMVal) :
    parseLink cwd (Except.error msg) docname targetRoot fs =
        ([], Except.error (PErr.jsonDecodeError msg)) ∧
      parseLink cwd (Except.ok (none, em)) docname targetRoot fs =
        ([], Except.error (PErr.keyError "path")) ∧
      (PErr.jsonDecodeError msg).isConfigError = false ∧
      (PErr.keyError "path").isConfigError = false :=
  ⟨rfl, rfl, rfl, rfl⟩

/-- C10: in `copy_file` (lines 52-70), the source is registered as a
dependency exactly when the copy itself succeeded; when the copy raises,
the state is left untouched (no dependency registration, no filesystem
change) and exactly one warning naming the source is logged. -/
theorem C10_register_iff_copied (cwd : PyPath) (c : Core) (src dest : PyPath) :
    ((shutilCopy cwd c.fs src dest).isOk = true →
      (copyFileM cwd c src dest).1.deps = c.deps ++ [src] ∧
        (copyFileM cwd c src dest).2 = []) ∧
    ((shutilCopy cwd c.fs src dest).isOk = false →
      (copyFileM cwd c src dest).1 = c ∧
        ∃ e, (copyFileM cwd c src dest).2 = [Warn.copyFail src e]) := by
  cases h : shutilCopy cwd c.fs src dest with
  | ok fs2 =>
    refine ⟨fun _ => ⟨?_, ?_⟩, fun hcon => ?_⟩
    · simp [copyFileM, h, registerDependency]
    · simp [copyFileM, h]
    · simp [h, Except.isOk, Except.toBool] at hcon
  | error e =>
    refine ⟨fun hcon => ?_, fun _ => ⟨?_, e, ?_⟩⟩
    · simp [h, Except.isOk, Except.toBool] at hcon
    · simp [copyFileM, h]
    · simp [copyFileM, h]

/-- Witness for C10 at a concrete successful copy: fig.png exists and the
destination directory exists, so the copy succeeds and the dependency is
registered with no warning. -/
theorem C10_register_iff_copied_witness :
    (copyFileM exRoot ⟨exFS, [], false, false⟩
        ⟨false, ["notebooks", "img", "fig.png"]⟩ ⟨false, ["docs", "fig2.png"]⟩).1.deps =
      [] ++ [⟨false, ["notebooks", "img", "fig.png"]⟩] ∧
    (copyFileM exRoot ⟨exFS, [], false, false⟩
        ⟨false, ["notebooks", "img", "fig.png"]⟩ ⟨false, ["docs", "fig2.png"]⟩).2 = [] :=
  (C10_register_iff_copied exRoot ⟨exFS, [], false, false⟩
    ⟨false, ["notebooks", "img", "fig.png"]⟩ ⟨false, ["docs", "fig2.png"]⟩).1 (by decide)

theorem runEntriesM_nil (cwd sf nb : PyPath) (c : Core) :
    runEntriesM cwd sf nb c [] = (c, []) := rfl

/-- The loop with a non-empty warning accumulator. -/
theorem runEntriesM_accum (cwd sf nb : PyPath) :
    ∀ (es : List PyPath) (c : Core) (w : List Warn),
      List.foldl (fun acc e => seqW acc (fun c1 => processEntryM cwd sf nb c1 e)) (c, w) es =
        ((runEntriesM cwd sf nb c es).1, w ++ (runEntriesM cwd sf nb c es).2) := by
  intro es
  induction es with
  | nil => intro c w; simp [runEntriesM]
  | cons e es ih =>
    intro c w
    have hseq : ∀ w0 : List Warn,
        seqW (c, w0) (fun c1 => processEntryM cwd sf nb c1 e) =
          ((processEntryM cwd sf nb c e).1, w0 ++ (processEntryM cwd sf nb c e).2) := by
      intro w0
      unfold seqW
      rcases h : processEntryM cwd sf nb c e with ⟨c2, w2⟩
      simp [h]
    have hr : runEntriesM cwd sf nb c (e :: es) =
        ((runEntriesM cwd sf nb (processEntryM cwd sf nb c e).1 es).1,
          (processEntryM cwd sf nb c e).2 ++
            (runEntriesM cwd sf nb (processEntryM cwd sf nb c e).1 es).2) := by
      conv_lhs => rw [runEntriesM]
      rw [List.foldl_cons, hseq [], List.nil_append]
      exact ih (processEntryM cwd sf nb c e).1 (processEntryM cwd sf nb c e).2
    rw [List.foldl_cons, hseq w, ih, hr]
    simp [List.append_assoc]

theorem runEntriesM_cons (cwd sf nb : PyPath) (c : Core) (e : PyPath) (es : List PyPath) :
    runEntriesM cwd sf nb c (e :: es) =
      ((runEntriesM cwd sf nb (processEntryM cwd sf nb c e).1 es).1,
        (processEntryM cwd sf nb c e).2 ++
          (runEntriesM cwd sf nb (processEntryM cwd sf nb c e).1 es).2) := by
  conv_lhs => rw [runEntriesM]
  rw [List.foldl_cons]
  have hseq : seqW (c, []) (fun c1 => processEntryM cwd sf nb c1 e) =
      ((processEntryM cwd sf nb c e).1, (processEntryM cwd sf nb c e).2) := by
    unfold seqW
    rcases h : processEntryM cwd sf nb c e with ⟨c2, w2⟩
    simp [h]
  rw [hseq, runEntriesM_accum]

theorem runEntriesM_append (cwd sf nb : PyPath) :
    ∀ (xs ys : List PyPath) (c : Core),
      runEntriesM cwd sf nb c (xs ++ ys) =
        ((runEntriesM cwd sf nb (runEntriesM cwd sf nb c xs).1 ys).1,
          (runEntriesM cwd sf nb c xs).2 ++
            (runEntriesM cwd sf nb (runEntriesM cwd sf nb c xs).1 ys).2) := by
  intro xs
  induction xs with
  | nil => intro ys c; simp [runEntriesM_nil]
  | cons x xs ih =>
    intro ys c
    rw [List.cons_append, runEntriesM_cons, ih, runEntriesM_cons]
    simp [List.append_assoc]

/-- `relativePath` written without its let bindings. -/
theorem relativePath_eq (cwd s t : PyPath) :
    relativePath cwd s t =
      if (pyResolve cwd s).parts.take 1 ≠ (pyResolve cwd t).parts.take 1 then
        ⟨true, (pyResolve cwd t).parts⟩
      else
        ⟨false, List.replicate ((pyResolve cwd s).parts.length -
            sharedLen (pyResolve cwd s).parts (pyResolve cwd t).parts - 1) ".." ++
          (pyResolve cwd t).parts.drop
            (sharedLen (pyResolve cwd s).parts (pyResolve cwd t).parts)⟩ := rfl

/-- Resolving `path = relative_path(None, abs_path)` (line 183) against
the working directory recovers `abs_path`, provided the working directory
is canonical and `abs_path` does not lie under the fictitious "dummy"
file that `relative_path` uses for a `None` source. -/
theorem nbPath_resolves (cwd docname p : PyPath) (hc : canonAbs cwd)
    (hk : sharedLen (cwd.parts ++ ["dummy"]) (nbAbsOf cwd docname p).parts ≤
      cwd.parts.length) :
    pyResolve cwd (nbPathOf cwd docname p) = nbAbsOf cwd docname p := by
  obtain ⟨hca, hcg⟩ := hc
  obtain ⟨hNa0, hNg0⟩ := canonAbs_pyResolve cwd (pyJoin (parentP docname) p) hca
  have hNa : (nbAbsOf cwd docname p).isAbs = true := hNa0
  have hNg : goodParts (nbAbsOf cwd docname p).parts := hNg0
  clear hNa0 hNg0
  set N := nbAbsOf cwd docname p with hN
  have hdg : goodParts (cwd.parts ++ ["dummy"]) := by
    apply goodParts_append hcg
    intro c hc2
    have : c = "dummy" := by simpa using hc2
    subst this
    decide
  have hsp : pyResolve cwd ⟨false, ["dummy"]⟩ = ⟨true, cwd.parts ++ ["dummy"]⟩ := by
    have h1 : pyJoin cwd ⟨false, ["dummy"]⟩ = ⟨cwd.isAbs, cwd.parts ++ ["dummy"]⟩ := by
      unfold pyJoin; simp
    unfold pyResolve
    rw [h1, hca]
    exact pyNorm_canon ⟨true, cwd.parts ++ ["dummy"]⟩ hdg
  have hNres : pyResolve cwd N = N := by
    have h1 : pyJoin cwd N = N := by
      unfold pyJoin; simp [hNa]
    unfold pyResolve
    rw [h1]
    exact pyNorm_canon N hNg
  unfold nbPathOf
  rw [← hN, relativePath_eq, hsp, hNres]
  by_cases hcond : (cwd.parts ++ ["dummy"]).take 1 = N.parts.take 1
  · rw [if_neg (by simpa using hcond)]
    have hjoin : pyJoin cwd
        ⟨false, List.replicate ((cwd.parts ++ ["dummy"]).length -
            sharedLen (cwd.parts ++ ["dummy"]) N.parts - 1) ".." ++
          N.parts.drop (sharedLen (cwd.parts ++ ["dummy"]) N.parts)⟩ =
        ⟨cwd.isAbs, cwd.parts ++
          (List.replicate ((cwd.parts ++ ["dummy"]).length -
              sharedLen (cwd.parts ++ ["dummy"]) N.parts - 1) ".." ++
            N.parts.drop (sharedLen (cwd.parts ++ ["dummy"]) N.parts))⟩ := by
      unfold pyJoin; simp
    unfold pyResolve
    rw [hjoin, hca]
    set k := sharedLen (cwd.parts ++ ["dummy"]) N.parts with hkdef
    have hm : (cwd.parts ++ ["dummy"]).length - k - 1 = cwd.parts.length - k := by
      simp only [List.length_append, List.length_cons, List.length_nil]
      omega
    have htk : cwd.parts.take k = N.parts.take k := by
      have h1 : (cwd.parts ++ ["dummy"]).take k = cwd.parts.take k :=
        List.take_append_of_le_length hk
      have h2 : (cwd.parts ++ ["dummy"]).take k = N.parts.take k := by
        rw [hkdef]; exact take_sharedLen _ _
      rw [← h1, h2]
    have hsplit : cwd.parts = N.parts.take k ++ cwd.parts.drop k := by
      conv_lhs => rw [← List.take_append_drop k cwd.parts]
      rw [htk]
    have hdlen : cwd.parts.length - k = (cwd.parts.drop k).length :=
      (List.length_drop k cwd.parts).symm
    have key : cwd.parts ++
        (List.replicate ((cwd.parts ++ ["dummy"]).length - k - 1) ".." ++
          N.parts.drop k) =
        (N.parts.take k ++ cwd.parts.drop k) ++
          (List.replicate (cwd.parts.drop k).length ".." ++ N.parts.drop k) := by
      rw [hm, hdlen, ← hsplit]
    unfold pyNorm
    simp only [key]
    rw [rejoin_abs (N.parts.take k) (cwd.parts.drop k) (N.parts.drop k)
      (goodParts_take hNg k) (goodParts_drop hcg k) (goodParts_drop hNg k)]
    rw [List.take_append_drop]
    rw [← hNa]
  · rw [if_pos (by simpa using hcond)]
    have h1 : pyJoin cwd ⟨true, N.parts⟩ = ⟨true, N.parts⟩ := by
      unfold pyJoin; simp
    unfold pyResolve
    rw [h1, pyNorm_canon ⟨true, N.parts⟩ hNg]
    rw [← hNa]

/-- An iteration on an entry whose resolved source exists, is not a
directory, and whose copy succeeds: the file is copied, registered as a
dependency, and no warning is produced. -/
theorem processEntryM_file_ok (cwd sf nb : PyPath) (c : Core) (e : PyPath) (fs2 : FS)
    (hx : existsIn c.fs (pyResolve cwd (mediaSrc (parentP sf) e)).parts = true)
    (hd : dirIn c.fs (pyResolve cwd (mediaSrc (parentP sf) e)).parts = false)
    (hcopy : shutilCopy cwd c.fs (mediaSrc (parentP sf) e)
      (mediaDest cwd (parentP sf) nb (mediaSrc (parentP sf) e)) = Except.ok fs2)
    (hA : c.anyDirs = false) :
    processEntryM cwd sf nb c e =
      ({ c with fs := fs2, deps := c.deps ++ [mediaSrc (parentP sf) e] }, []) := by
  obtain ⟨cfs, cdeps, cany, crr⟩ := c
  simp only at hx hd hcopy hA
  subst hA
  unfold processEntryM copyAndRegisterFilesM copyFileM
  simp [hx, hd, hcopy, registerDependency]

/-- C6: a document whose descriptor names a notebook path `p` and exactly
two extra-media entries, each resolving (per the source's resolution) to
an existing plain file whose copy succeeds: after processing, the
document's dependency set holds exactly three paths — the two media
sources and the notebook path — in the registered (working-directory
relative) form, and these resolve to exactly the absolute media file
paths and the absolute notebook path; no warnings are emitted. -/
theorem C6_dependency_set (cwd docname targetRoot p e1 e2 : PyPath) (fs fs1 fs2 : FS)
    (hc : canonAbs cwd)
    (hk : sharedLen (cwd.parts ++ ["dummy"]) (nbAbsOf cwd docname p).parts ≤
      cwd.parts.length)
    (ht : (relativeToWalkUp (nbAbsOf cwd docname p) targetRoot).isSome = true)
    (h1x : existsIn fs (pyResolve cwd (mediaSrc (parentP docname) e1)).parts = true)
    (h1d : dirIn fs (pyResolve cwd (mediaSrc (parentP docname) e1)).parts = false)
    (h1c : shutilCopy cwd fs (mediaSrc (parentP docname) e1)
      (mediaDest cwd (parentP docname) (nbPathOf cwd docname p)
        (mediaSrc (parentP docname) e1)) = Except.ok fs1)
    (h2x : existsIn fs1 (pyResolve cwd (mediaSrc (parentP docname) e2)).parts = true)
    (h2d : dirIn fs1 (pyResolve cwd (mediaSrc (parentP docname) e2)).parts = false)
    (h2c : shutilCopy cwd fs1 (mediaSrc (parentP docname) e2)
      (mediaDest cwd (parentP docname) (nbPathOf cwd docname p)
        (mediaSrc (parentP docname) e2)) = Except.ok fs2) :
    ∃ target,
      parseLink cwd (Except.ok (some p, some (EMVal.vlist [e1, e2]))) docname targetRoot fs =
        ([], Except.ok ⟨⟨fs2,
          [mediaSrc (parentP docname) e1, mediaSrc (parentP docname) e2,
            nbPathOf cwd docname p], false, false⟩,
          nbAbsOf cwd docname p, nbPathOf cwd docname p, target⟩) ∧
      pyResolve cwd (nbPathOf cwd docname p) = nbAbsOf cwd docname p := by
  obtain ⟨target, htg⟩ := Option.isSome_iff_exists.mp ht
  refine ⟨target, ?_, nbPath_resolves cwd docname p hc hk⟩
  have e1ok := processEntryM_file_ok cwd docname (nbPathOf cwd docname p)
    ⟨fs, [], false, false⟩ e1 fs1 h1x h1d h1c rfl
  have e2ok := processEntryM_file_ok cwd docname (nbPathOf cwd docname p)
    ⟨fs1, [mediaSrc (parentP docname) e1], false, false⟩ e2 fs2 h2x h2d h2c rfl
  have hrun : runEntriesM cwd docname (nbPathOf cwd docname p)
      ⟨fs, [], false, false⟩ [e1, e2] =
      (⟨fs2, [mediaSrc (parentP docname) e1, mediaSrc (parentP docname) e2],
        false, false⟩, []) := by
    rw [runEntriesM_cons, e1ok]
    simp only [List.nil_append]
    rw [runEntriesM_cons]
    simp only [List.nil_append]
    rw [e2ok, runEntriesM_nil]
    simp
  have hred : parseLink cwd (Except.ok (some p, some (EMVal.vlist [e1, e2])))
      docname targetRoot fs =
      (match relativeToWalkUp (nbAbsOf cwd docname p) targetRoot with
        | none =>
          ((runEntriesM cwd docname (nbPathOf cwd docname p)
              ⟨fs, [], false, false⟩ [e1, e2]).2,
            Except.error (PErr.valueError "relative_to walk_up"))
        | some t =>
          ((runEntriesM cwd docname (nbPathOf cwd docname p)
              ⟨fs, [], false, false⟩ [e1, e2]).2,
            Except.ok ⟨registerDependency (nbPathOf cwd docname p)
              (runEntriesM cwd docname (nbPathOf cwd docname p)
                ⟨fs, [], false, false⟩ [e1, e2]).1,
              nbAbsOf cwd docname p, nbPathOf cwd docname p, t⟩)) := by
    unfold parseLink collectExtraMediaM
    simp [EMVal.truthy, EMVal.isList, EMVal.entries]
  rw [hred, hrun, htg]
  simp [registerDependency]

/-- Witness for C6: a descriptor at docs/a/b.nblink with notebook
../../notebooks/demo.ipynb and two file entries ../../x/m1 and ../../x/m2
on the filesystem fs6. -/
theorem C6_dependency_set_witness :
    ∃ target,
      parseLink exRoot (Except.ok (some ⟨false, ["..", "..", "notebooks", "demo.ipynb"]⟩,
          some (EMVal.vlist [⟨false, ["..", "..", "x", "m1"]⟩,
            ⟨false, ["..", "..", "x", "m2"]⟩]))) exDoc exRoot fs6 =
        ([], Except.ok ⟨⟨⟨[["root", "docs", "a", "x", "m1"], ["root", "docs", "a", "x", "m2"],
            ["root", "docs", "docs", "a", "x", "m1"], ["root", "docs", "docs", "a", "x", "m2"]],
            fs6.dirs⟩,
          [mediaSrc (parentP exDoc) ⟨false, ["..", "..", "x", "m1"]⟩,
            mediaSrc (parentP exDoc) ⟨false, ["..", "..", "x", "m2"]⟩,
            nbPathOf exRoot exDoc ⟨false, ["..", "..", "notebooks", "demo.ipynb"]⟩],
          false, false⟩,
          nbAbsOf exRoot exDoc ⟨false, ["..", "..", "notebooks", "demo.ipynb"]⟩,
          nbPathOf exRoot exDoc ⟨false, ["..", "..", "notebooks", "demo.ipynb"]⟩, target⟩) ∧
      pyResolve exRoot (nbPathOf exRoot exDoc ⟨false, ["..", "..", "notebooks", "demo.ipynb"]⟩) =
        nbAbsOf exRoot exDoc ⟨false, ["..", "..", "notebooks", "demo.ipynb"]⟩ :=
  C6_dependency_set exRoot exDoc exRoot ⟨false, ["..", "..", "notebooks", "demo.ipynb"]⟩
    ⟨false, ["..", "..", "x", "m1"]⟩ ⟨false, ["..", "..", "x", "m2"]⟩ fs6
    ⟨[["root", "docs", "a", "x", "m1"], ["root", "docs", "a", "x", "m2"],
      ["root", "docs", "docs", "a", "x", "m1"]], fs6.dirs⟩
    ⟨[["root", "docs", "a", "x", "m1"], ["root", "docs", "a", "x", "m2"],
      ["root", "docs", "docs", "a", "x", "m1"], ["root", "docs", "docs", "a", "x", "m2"]],
      fs6.dirs⟩
    (by decide) (by decide) (by decide) (by decide) (by decide) (by decide)
    (by decide) (by decide) (by decide)

/-- Every iteration of the loop re-establishes the invariant: the loop
body ends by requesting a re-read whenever a directory has been seen. -/
theorem processEntryM_inv (cwd sf nb : PyPath) (c : Core) (e : PyPath) :
    coreInv (processEntryM cwd sf nb c e).1 := by
  have key : ∀ (r : Core × List Warn),
      coreInv (if r.1.anyDirs then ({ r.1 with reread := true }, r.2) else r).1 := by
    intro r
    by_cases h : r.1.anyDirs
    · simp only [h, if_true]
      intro _
      rfl
    · simp only [h, if_false]
      intro hh
      exact absurd hh (by simpa using h)
  exact key _

theorem runEntriesM_inv (cwd sf nb : PyPath) :
    ∀ (es : List PyPath) (c : Core), coreInv c →
      coreInv (runEntriesM cwd sf nb c es).1 := by
  intro es
  induction es with
  | nil => intro c h; simpa [runEntriesM_nil] using h
  | cons e es ih =>
    intro c h
    rw [runEntriesM_cons]
    exact ih _ (processEntryM_inv cwd sf nb c e)

/-- An iteration on an entry whose resolved source does not exist leaves
the state unchanged (given the invariant) and produces exactly the
invalid-path warning naming the descriptor file and the entry. -/
theorem processEntryM_missing (cwd sf nb : PyPath) (c : Core) (e : PyPath)
    (hx : existsIn c.fs (pyResolve cwd (mediaSrc (parentP sf) e)).parts = false)
    (hinv : coreInv c) :
    processEntryM cwd sf nb c e = (c, [Warn.invalidPath sf e]) := by
  obtain ⟨cfs, cdeps, cany, crr⟩ := c
  simp only at hx
  unfold processEntryM
  simp only [hx, Bool.false_eq_true, if_false]
  by_cases hA : cany
  · have hr : crr = true := hinv (by simpa using hA)
    subst hr
    simp [hA]
  · simp only [Bool.not_eq_true] at hA
    subst hA
    simp

/-- C7: an extra-media list consisting of entries that process without
warnings around one entry whose resolved source path does not exist:
processing the whole list completes, produces exactly one warning (the
invalid-path warning naming the descriptor file and the bad entry), and
yields exactly the state that processing the list without the bad entry
yields — every other entry is copied and registered exactly as it would
have been, and the clean run itself is warning-free. -/
theorem C7_one_missing_entry (cwd sf nb : PyPath) (c0 : Core)
    (pre post : List PyPath) (bad : PyPath)
    (hinv : coreInv c0)
    (hpre : (runEntriesM cwd sf nb c0 pre).2 = [])
    (hbad : existsIn (runEntriesM cwd sf nb c0 pre).1.fs
      (pyResolve cwd (mediaSrc (parentP sf) bad)).parts = false)
    (hpost : (runEntriesM cwd sf nb (runEntriesM cwd sf nb c0 pre).1 post).2 = []) :
    runEntriesM cwd sf nb c0 (pre ++ bad :: post) =
        ((runEntriesM cwd sf nb c0 (pre ++ post)).1, [Warn.invalidPath sf bad]) ∧
      (runEntriesM cwd sf nb c0 (pre ++ post)).2 = [] := by
  have hinv1 : coreInv (runEntriesM cwd sf nb c0 pre).1 :=
    runEntriesM_inv cwd sf nb pre c0 hinv
  have hb := processEntryM_missing cwd sf nb (runEntriesM cwd sf nb c0 pre).1 bad hbad hinv1
  constructor
  · rw [runEntriesM_append, runEntriesM_cons, hb]
    simp only [hpre]
    rw [runEntriesM_append]
    simp only [hpre, hpost]
    simp
  · rw [runEntriesM_append]
    simp [hpre, hpost]

/-- Witness for C7: descriptor docs/a/b.nblink, a valid file entry before
and after one entry (../../x/nope) whose resolved source is missing. -/
theorem C7_one_missing_entry_witness :
    runEntriesM exRoot exDoc exNbRel ⟨fs6, [], false, false⟩
        ([⟨false, ["..", "..", "x", "m1"]⟩] ++ ⟨false, ["..", "..", "x", "nope"]⟩ ::
          [⟨false, ["..", "..", "x", "m2"]⟩]) =
        ((runEntriesM exRoot exDoc exNbRel ⟨fs6, [], false, false⟩
            ([⟨false, ["..", "..", "x", "m1"]⟩] ++ [⟨false, ["..", "..", "x", "m2"]⟩])).1,
          [Warn.invalidPath exDoc ⟨false, ["..", "..", "x", "nope"]⟩]) ∧
      (runEntriesM exRoot exDoc exNbRel ⟨fs6, [], false, false⟩
          ([⟨false, ["..", "..", "x", "m1"]⟩] ++ [⟨false, ["..", "..", "x", "m2"]⟩])).2 = [] :=
  C7_one_missing_entry exRoot exDoc exNbRel ⟨fs6, [], false, false⟩
    [⟨false, ["..", "..", "x", "m1"]⟩] [⟨false, ["..", "..", "x", "m2"]⟩]
    ⟨false, ["..", "..", "x", "nope"]⟩ (by decide) (by decide) (by decide) (by decide)
